import Mathlib

/-!
Verification of the Scrub URL-cleaning engine (src/Scrub/scrub.py).

The development shallowly embeds the rule-processing logic of `clean_url`,
the significance check of `on_message`, and the rule-refresh decision logic
of `_update` / `_load_rules_from_file`.

Regular expressions are embedded as an abstract syntax tree (the source
stores them as strings compiled by Python's `re` module); matching follows
Python's backtracking semantics for `re.match` (anchored at the start of
the string, leftmost branch first, greedy repetition), so a leading caret
in a source pattern is a no-op and is dropped in the AST form.
-/

namespace Scrub

/-- Regular-expression AST covering the constructs the rule patterns use:
the empty pattern, literal characters, the dot, concatenation, alternation,
Kleene star, and the single capture group (group 1). -/
inductive Regex where
  | eps
  | char (c : Char)
  | any
  | seq (a b : Regex)
  | alt (a b : Regex)
  | star (a : Regex)
  | group (a : Regex)
deriving DecidableEq

/-- Structural size of a pattern, used to bound the matcher's fuel. -/
def Regex.size : Regex → Nat
  | .eps => 1
  | .char _ => 1
  | .any => 1
  | .seq a b => a.size + b.size + 1
  | .alt a b => a.size + b.size + 1
  | .star a => a.size + 1
  | .group a => a.size + 1

/-- Literal string pattern: concatenation of its characters. -/
def lit (s : String) : Regex :=
  s.data.foldr (fun c r => Regex.seq (Regex.char c) r) Regex.eps

/-- One-or-more repetition, as Python's `+`. -/
def rplus (r : Regex) : Regex := Regex.seq r (Regex.star r)

/-- Character comparison, optionally case-insensitive (re.IGNORECASE). -/
def ceq (ci : Bool) (a b : Char) : Bool :=
  if ci then a.toLower == b.toLower else a == b

/-- Combine two capture results: a later assignment of group 1 wins,
as in Python where the last iteration's capture is reported. -/
def combineCap (a b : Option (List Char)) : Option (List Char) :=
  match b with
  | some x => some x
  | none => a

/-- All ways a pattern can match a prefix of the input, in Python's
backtracking priority order (the head is the match `re.match` finds).
Each result is the value of capture group 1 (if set) and the remaining
input after the consumed prefix.  The fuel argument only serves
termination; `fuelFor` below always supplies enough. -/
def rmatches (ci : Bool) : Nat → Regex → List Char → List (Option (List Char) × List Char)
  | 0, _, _ => []
  | _ + 1, Regex.eps, s => [(none, s)]
  | _ + 1, Regex.char _, [] => []
  | _ + 1, Regex.char c, x :: xs => if ceq ci c x then [(none, xs)] else []
  | _ + 1, Regex.any, [] => []
  | _ + 1, Regex.any, _ :: xs => [(none, xs)]
  | fuel + 1, Regex.seq a b, s =>
      (rmatches ci fuel a s).flatMap (fun p =>
        (rmatches ci fuel b p.2).map (fun q => (combineCap p.1 q.1, q.2)))
  | fuel + 1, Regex.alt a b, s => rmatches ci fuel a s ++ rmatches ci fuel b s
  | fuel + 1, Regex.star a, s =>
      ((rmatches ci fuel a s).filter (fun p => p.2.length < s.length)).flatMap
        (fun p => (rmatches ci fuel (Regex.star a) p.2).map
          (fun q => (combineCap p.1 q.1, q.2)))
      ++ [(none, s)]
  | fuel + 1, Regex.group a, s =>
      (rmatches ci fuel a s).map (fun p => (some (s.take (s.length - p.2.length)), p.2))

/-- Sufficient fuel: along every call path of `rmatches` the measure
`length * (size r₀ + 1) + size` strictly decreases, so this bound is never
exhausted. -/
def fuelFor (r : Regex) (l : List Char) : Nat :=
  (l.length + 1) * (r.size + 1) + r.size + 1

/-- Python's `re.match(pattern, s)`: `none` when the pattern does not match
at the start of `s`; otherwise `some g` where `g` is the text captured by
group 1 (or `none` when group 1 is absent or did not participate, in which
case `match.group(1)` is `None` or raises `IndexError`). -/
def reMatch (ci : Bool) (r : Regex) (s : String) : Option (Option String) :=
  match rmatches ci (fuelFor r s.data) r s.data with
  | [] => none
  | p :: _ => some (Option.map String.mk p.1)

/-- Truthiness of `re.match(pattern, s)`. -/
def reMatchB (ci : Bool) (r : Regex) (s : String) : Bool :=
  (reMatch ci r s).isSome

/-- UTF-8 encoding of one character, as a list of byte values. -/
def charUtf8 (c : Char) : List Nat :=
  let n := c.toNat
  if n < 128 then [n]
  else if n < 2048 then [192 + n / 64, 128 + n % 64]
  else if n < 65536 then [224 + n / 4096, 128 + (n / 64) % 64, 128 + n % 64]
  else [240 + n / 262144, 128 + (n / 4096) % 64, 128 + (n / 64) % 64, 128 + n % 64]

/-- UTF-8 encoding of a string. -/
def strUtf8 (s : String) : List Nat :=
  s.data.flatMap charUtf8

/-- The U+FFFD replacement character used by `errors='replace'` decoding. -/
def repl : Char := Char.ofNat 65533

/-- Continuation-byte test (0x80–0xBF). -/
def contOk (x : Nat) : Bool := 128 ≤ x && x ≤ 191

/-- Validity of the first continuation byte given the lead byte of a three-
or four-byte sequence (rules out overlong forms and surrogates). -/
def cont1Ok (b x : Nat) : Bool :=
  contOk x &&
  (b != 224 || 160 ≤ x) && (b != 237 || x ≤ 159) &&
  (b != 240 || 144 ≤ x) && (b != 244 || x ≤ 143)

/-- Decode one UTF-8 sequence starting with byte `b`: the decoded character
and the bytes remaining afterwards.  Invalid sequences decode to U+FFFD,
consuming their maximal valid prefix, as Python's `errors='replace'`. -/
def utf8Step (b : Nat) (rest : List Nat) : Char × List Nat :=
  if b < 128 then (Char.ofNat b, rest)
  else if 194 ≤ b && b ≤ 223 then
    match rest with
    | [] => (repl, [])
    | c1 :: r1 =>
      if contOk c1 then (Char.ofNat ((b - 192) * 64 + (c1 - 128)), r1)
      else (repl, c1 :: r1)
  else if 224 ≤ b && b ≤ 239 then
    match rest with
    | [] => (repl, [])
    | c1 :: r1 =>
      if cont1Ok b c1 then
        match r1 with
        | [] => (repl, [])
        | c2 :: r2 =>
          if contOk c2 then
            (Char.ofNat ((b - 224) * 4096 + (c1 - 128) * 64 + (c2 - 128)), r2)
          else (repl, c2 :: r2)
      else (repl, c1 :: r1)
  else if 240 ≤ b && b ≤ 244 then
    match rest with
    | [] => (repl, [])
    | c1 :: r1 =>
      if cont1Ok b c1 then
        match r1 with
        | [] => (repl, [])
        | c2 :: r2 =>
          if contOk c2 then
            match r2 with
            | [] => (repl, [])
            | c3 :: r3 =>
              if contOk c3 then
                (Char.ofNat ((b - 240) * 262144 + (c1 - 128) * 4096 +
                  (c2 - 128) * 64 + (c3 - 128)), r3)
              else (repl, c3 :: r3)
          else (repl, c2 :: r2)
      else (repl, c1 :: r1)
  else (repl, rest)

/-- Fueled UTF-8 decoder; the fuel is the byte count, which always
suffices because every step consumes at least one byte. -/
def utf8DecodeF : Nat → List Nat → List Char
  | 0, _ => []
  | _ + 1, [] => []
  | fuel + 1, b :: rest =>
    (utf8Step b rest).1 :: utf8DecodeF fuel (utf8Step b rest).2

/-- UTF-8 decoding with replacement of invalid sequences. -/
def utf8Decode (l : List Nat) : List Char :=
  utf8DecodeF l.length l

/-- Hexadecimal digit value, if any (both cases accepted, as in the
`_hexdig` table of `urllib.parse`). -/
def hexVal (c : Char) : Option Nat :=
  let n := c.toNat
  if 48 ≤ n && n ≤ 57 then some (n - 48)
  else if 65 ≤ n && n ≤ 70 then some (n - 55)
  else if 97 ≤ n && n ≤ 102 then some (n - 87)
  else none

/-- Percent-decoding to bytes: `%XY` with two hex digits becomes one byte,
anything else contributes its UTF-8 bytes (an invalid `%` run is kept
literally, as in `urllib.parse.unquote_to_bytes`). -/
def pctBytes : List Char → List Nat
  | [] => []
  | '%' :: a :: b :: rest =>
    match hexVal a, hexVal b with
    | some x, some y => (16 * x + y) :: pctBytes rest
    | _, _ => 37 :: pctBytes (a :: b :: rest)
  | c :: rest => charUtf8 c ++ pctBytes rest

/-- `urllib.parse.unquote`: percent-decode, then UTF-8-decode with
replacement of invalid sequences. -/
def unquote (s : String) : String :=
  String.mk (utf8Decode (pctBytes s.data))

/-- Bytes that `quote` leaves unescaped: ASCII letters, digits, and
`_ . - ~`. -/
def safeByte (b : Nat) : Bool :=
  (65 ≤ b && b ≤ 90) || (97 ≤ b && b ≤ 122) || (48 ≤ b && b ≤ 57) ||
  b == 95 || b == 46 || b == 45 || b == 126

/-- Uppercase hexadecimal digit for a value below 16. -/
def hexDigit (n : Nat) : Char :=
  if n < 10 then Char.ofNat (48 + n) else Char.ofNat (55 + n)

/-- `urllib.parse.quote_plus` applied to one byte: safe bytes stay, a space
becomes `+`, anything else becomes `%XX` with uppercase hex. -/
def quoteByte (b : Nat) : List Char :=
  if safeByte b then [Char.ofNat b]
  else if b == 32 then ['+']
  else ['%', hexDigit (b / 16), hexDigit (b % 16)]

/-- `urllib.parse.quote_plus` over the string's UTF-8 bytes. -/
def quote_plus (s : String) : String :=
  String.mk ((strUtf8 s).flatMap quoteByte)

/-- Split at the first occurrence of `sep`, removing it; `none` when `sep`
does not occur. -/
def splitOnce (sep : Char) : List Char → Option (List Char × List Char)
  | [] => none
  | c :: rest =>
    if c == sep then some ([], rest)
    else (splitOnce sep rest).map (fun p => (c :: p.1, p.2))

/-- Python's `str.split(sep)` for a one-character separator: the empty
string yields one empty field. -/
def splitSep (sep : Char) : List Char → List (List Char)
  | [] => [[]]
  | c :: rest =>
    if c == sep then [] :: splitSep sep rest
    else
      match splitSep sep rest with
      | [] => [[c]]
      | h :: t => (c :: h) :: t

/-- `urlsplit` strips tab, carriage-return and line-feed characters. -/
def removeUnsafe (l : List Char) : List Char :=
  l.filter (fun c => !(c == Char.ofNat 9 || c == Char.ofNat 13 || c == Char.ofNat 10))

/-- Characters permitted in a URL scheme after the first. -/
def schemeChar (c : Char) : Bool :=
  c.isAlpha || c.isDigit || c == '+' || c == '-' || c == '.'

/-- Split off a leading `scheme:` when the text before the first colon is a
well-formed scheme (leading letter, scheme characters throughout); the
scheme is lowercased. -/
def splitScheme (l : List Char) : String × List Char :=
  match splitOnce ':' l with
  | some (pre, post) =>
    match pre with
    | [] => ("", l)
    | c :: _ =>
      if c.isAlpha && pre.all schemeChar then
        (String.mk (pre.map Char.toLower), post)
      else ("", l)
  | none => ("", l)

/-- Split off the network location after a leading `//`, delimited by the
next `/`, `?` or `#`. -/
def netlocSplit (l : List Char) : List Char × List Char :=
  match l with
  | '/' :: '/' :: rest =>
    (rest.takeWhile (fun c => !(c == '/' || c == '?' || c == '#')),
     rest.dropWhile (fun c => !(c == '/' || c == '?' || c == '#')))
  | _ => ([], l)

/-- The six components `urlparse` returns. -/
structure UrlParts where
  scheme : String
  netloc : String
  path : String
  params : String
  query : String
  fragment : String
deriving DecidableEq

/-- Index of the first occurrence of a character. -/
def idxOf? (c : Char) (l : List Char) : Option Nat :=
  l.findIdx? (fun x => x == c)

/-- Index of the last occurrence of a character. -/
def lastIdxOf? (c : Char) (l : List Char) : Option Nat :=
  (idxOf? c l.reverse).map (fun i => l.length - 1 - i)

/-- `urllib.parse._splitparams`: split `path;params`, looking for the `;`
only in the last path segment when the path contains a slash. -/
def splitparams (p : List Char) : List Char × List Char :=
  match
    (if p.contains '/' then
      (lastIdxOf? '/' p).bind (fun k => (idxOf? ';' (p.drop k)).map (fun j => k + j))
    else idxOf? ';' p) with
  | some i => (p.take i, p.drop (i + 1))
  | none => (p, [])

/-- `urllib.parse.urlparse`: scheme, then netloc, then fragment, then
query, then params split out of the path. -/
def urlparse (s : String) : UrlParts :=
  let l := removeUnsafe s.data
  let sc := splitScheme l
  let nl := netlocSplit sc.2
  let fr := match splitOnce '#' nl.2 with
    | some p => p
    | none => (nl.2, [])
  let qu := match splitOnce '?' fr.1 with
    | some p => p
    | none => (fr.1, [])
  let pp := if qu.1.contains ';' then splitparams qu.1 else (qu.1, [])
  { scheme := sc.1, netloc := String.mk nl.1, path := String.mk pp.1,
    params := String.mk pp.2, query := String.mk qu.2,
    fragment := String.mk fr.2 }

/-- `urllib.parse.urlunparse` over six component strings. -/
def urlunparse (scheme netloc path params query fragment : String) : String :=
  let url := if params != "" then path ++ ";" ++ params else path
  let url :=
    if netloc != "" || (url != "" && url.take 2 == "//") then
      "//" ++ netloc ++ (if url != "" && url.take 1 != "/" then "/" ++ url else url)
    else url
  let url := if scheme != "" then scheme ++ ":" ++ url else url
  let url := if query != "" then url ++ "?" ++ query else url
  if fragment != "" then url ++ "#" ++ fragment else url

/-- Python replaces `+` by a space before percent-decoding query fields. -/
def plusToSpace (l : List Char) : List Char :=
  l.map (fun c => if c == '+' then ' ' else c)

/-- `urllib.parse.parse_qsl` with default arguments: split on `&`, skip
empty fields, skip fields without `=`, skip fields whose value is blank
(`keep_blank_values=False`), and percent-decode names and values. -/
def parse_qsl (qs : String) : List (String × String) :=
  (splitSep '&' qs.data).filterMap (fun nv =>
    if nv.isEmpty then none
    else
      match splitOnce '=' nv with
      | none => none
      | some p =>
        if p.2.isEmpty then none
        else some (unquote (String.mk (plusToSpace p.1)),
                   unquote (String.mk (plusToSpace p.2))))

/-- `urllib.parse.urlencode` with default arguments: `quote_plus` on names
and values, fields joined with `&`. -/
def urlencode (ps : List (String × String)) : String :=
  String.intercalate ("&") (ps.map (fun kv => quote_plus kv.1 ++ "=" ++ quote_plus kv.2))

/-- One provider entry of the rules document, with the fields `clean_url`
reads; absent fields are the empty list / `false`, as `provider.get`
yields. -/
structure Provider where
  urlPattern : Regex
  completeProvider : Bool
  exceptions : List Regex
  redirections : List Regex
  rules : List Regex
  referralMarketing : List Regex
  rawRules : List Regex
deriving DecidableEq

/-- The rule set: the ordered `providers` mapping (name, provider). -/
structure RuleSet where
  providers : List (String × Provider)
deriving DecidableEq

/-- The dynamic return value of `clean_url`: the Python function returns
either the literal `False` (a fully blocked URL) or a string, sharing one
return slot. -/
inductive CleanRet where
  | blocked
  | url (s : String)
deriving DecidableEq

/-- `re.sub(pattern, '', s)` specialised to the empty replacement (the
only use in the source): scan left to right, removing each match found and
resuming after it; positions without a (progressing) match emit their
character.  The fuel only serves termination: every step consumes at
least one character, so the input length always suffices. -/
def reSubF (r : Regex) : Nat → List Char → List Char
  | 0, _ => []
  | _ + 1, [] => []
  | fuel + 1, x :: xs =>
    match (rmatches false (fuelFor r (x :: xs)) r (x :: xs)).head? with
    | some pr =>
      if pr.2.length < (x :: xs).length then reSubF r fuel pr.2
      else x :: reSubF r fuel xs
    | none => x :: reSubF r fuel xs

/-- String form of `re.sub(pattern, '', s)`. -/
def re_sub (r : Regex) (s : String) : String :=
  String.mk (reSubF r s.data.length s.data)

/-- The redirection scan of the outer (`loop=True`) invocation: the first
pattern that matches with a non-empty group 1 yields its capture; a match
without a usable group (`IndexError`, unset group, or empty capture) falls
through to the next pattern. -/
def redirFirst : List Regex → String → Option String
  | [], _ => none
  | r :: rs, u =>
    match reMatch true r u with
    | some (some c) => if c != "" then some c else redirFirst rs u
    | _ => redirFirst rs u

/-- The redirection scan of the inner (`loop=False`) invocation: each
pattern that matches with a non-empty group 1 replaces the working URL by
the percent-decoded capture, and scanning continues on the updated URL. -/
def redirFold : List Regex → String → String
  | [], u => u
  | r :: rs, u =>
    match reMatch true r u with
    | some (some c) => if c != "" then redirFold rs (unquote c) else redirFold rs u
    | _ => redirFold rs u

/-- Query-parameter stripping: parse the query, drop every pair whose key
matches any pattern of `rules` followed by `referralMarketing` (one filter
pass per pattern, as the source's comprehension loop), and re-serialize
the six URL components. -/
def stripQuery (p : Provider) (u : String) : String :=
  let pr := urlparse u
  let qp := (p.rules ++ p.referralMarketing).foldl
    (fun acc r => acc.filter (fun kv => !reMatchB true r kv.1)) (parse_qsl pr.query)
  urlunparse pr.scheme pr.netloc pr.path pr.params (urlencode qp) pr.fragment

/-- Sequential application of the `rawRules` substitutions. -/
def applyRawRules (rs : List Regex) (u : String) : String :=
  rs.foldl (fun acc r => re_sub r acc) u

/-- Everything a non-blocked, non-excepted provider does after its
redirection scan: query stripping, then raw-rule substitution. -/
def providerTail (p : Provider) (u : String) : String :=
  applyRawRules p.rawRules (stripQuery p u)

/-- The provider loop of a recursive (`loop=False`) invocation of
`clean_url`: no further recursion happens, redirection captures are folded
into the working URL in place. -/
def cleanInner : List (String × Provider) → String → CleanRet
  | [], u => CleanRet.url u
  | (_, p) :: rest, u =>
    if !reMatchB true p.urlPattern u then cleanInner rest u
    else if p.completeProvider then CleanRet.blocked
    else if p.exceptions.any (fun e => reMatchB true e u) then cleanInner rest u
    else cleanInner rest (providerTail p (redirFold p.redirections u))

/-- The provider loop of the outer (`loop=True`) invocation of
`clean_url`: the first redirection capture triggers one recursive pass
(`cleanInner`) over all providers of the rule set on the decoded capture,
whose result is returned directly. -/
def cleanOuter (all : List (String × Provider)) :
    List (String × Provider) → String → CleanRet
  | [], u => CleanRet.url u
  | (_, p) :: rest, u =>
    if !reMatchB true p.urlPattern u then cleanOuter all rest u
    else if p.completeProvider then CleanRet.blocked
    else if p.exceptions.any (fun e => reMatchB true e u) then cleanOuter all rest u
    else
      match redirFirst p.redirections u with
      | some cap => cleanInner all (unquote cap)
      | none => cleanOuter all rest (providerTail p u)

/-- The provider loop at either recursion level, selected by the `loop`
flag. -/
def cleanList (loop : Bool) (all ps : List (String × Provider)) (u : String) : CleanRet :=
  if loop then cleanOuter all ps u else cleanInner ps u

/-- `Scrub.clean_url(url, rules, loop)`: run the provider loop over all
providers of the rule set. -/
def clean_url (url : String) (rules : RuleSet) (loop : Bool) : CleanRet :=
  cleanList loop rules.providers rules.providers url

/-- The conceptual result type of the spec: the caller compares the final
string with the input to distinguish `Unchanged` from `Cleaned`. -/
inductive Outcome where
  | Unchanged (u : String)
  | Cleaned (u : String)
  | Blocked
deriving DecidableEq

/-- The spec-level `clean`: `clean_url` with recursion enabled, classified
by exact string comparison with the input. -/
def cleanOutcome (url : String) (rules : RuleSet) : Outcome :=
  match clean_url url rules true with
  | CleanRet.blocked => Outcome.Blocked
  | CleanRet.url u => if u == url then Outcome.Unchanged u else Outcome.Cleaned u

/-- The significance test of `on_message` applied to one link and the
value `clean_url` returned.  Python evaluates `len(clean_link)` first;
when `clean_url` returned the blocked signal `False`, `len(False)` raises
`TypeError`, modelled by `Except.error`. -/
def significanceCheck (link : String) (cl : CleanRet) (threshold : Int) : Except Unit Bool :=
  match cl with
  | CleanRet.blocked => Except.error ()
  | CleanRet.url s =>
    Except.ok ((decide ((link.length : Int) ≤ (s.length : Int) - threshold) ||
                decide ((link.length : Int) ≥ (s.length : Int) + threshold)) &&
               !(link.toLower == s.toLower || link.toLower == (unquote s).toLower))

/-- JSON values, for the rules document handled by `_update`. -/
inductive Json where
  | null
  | bool (b : Bool)
  | num (n : Int)
  | str (s : String)
  | arr (xs : List Json)
  | obj (kvs : List (String × Json))

/-- Whether a document is a mapping containing a `providers` mapping (the
shape §4.1 of the spec demands a loader reject everything else). -/
def isProvidersDoc : Json → Bool
  | Json.obj kvs =>
    kvs.any (fun kv =>
      kv.1 == "providers" &&
      (match kv.2 with
       | Json.obj _ => true
       | _ => false))
  | _ => false

/-- The download outcome seen by `_update`: HTTP status, raw body bytes,
and the result of `json.loads` on the body (`none` when parsing raises
`JSONDecodeError`). -/
structure Download where
  status : Nat
  body : List Nat
  parsed : Option Json

/-- `_load_rules_from_file`: the stored rules after the local-file
fallback.  When the local file is present and parses, its content replaces
the stored rules; on `FileNotFoundError` or `JSONDecodeError` the stored
rules are left as they were. -/
def loadRulesFromFile (old : Json) (localFile : Option Json) : Json :=
  match localFile with
  | some r => r
  | none => old

/-- The stored rules after `_update`: `none` for the fetch models an
`aiohttp.ClientError`.  A non-200 status, an empty body, or a body that
fails `json.loads` all fall back to the local file; a parsed body is
stored as-is, with no validation of its shape. -/
def updateRules (old : Json) (localFile : Option Json) (fetch : Option Download) : Json :=
  match fetch with
  | none => loadRulesFromFile old localFile
  | some d =>
    if d.status ≠ 200 then loadRulesFromFile old localFile
    else if d.body.isEmpty then loadRulesFromFile old localFile
    else
      match d.parsed with
      | none => loadRulesFromFile old localFile
      | some r => r

/-! ### Concrete rule sets used by the claims' examples -/

/-- A provider with every optional field absent (the `provider.get`
defaults) and a pattern that matches any URL, as `re.match("", url)`
does. -/
def emptyProvider : Provider :=
  { urlPattern := Regex.eps, completeProvider := false, exceptions := [],
    redirections := [], rules := [], referralMarketing := [], rawRules := [] }

/-- A blocking provider matching every URL. -/
def blockAllProvider : Provider :=
  { emptyProvider with
    completeProvider := true }

/-- A blocking provider matching every URL whose exception list also
matches every URL. -/
def blockedWithException : Provider :=
  { emptyProvider with
    completeProvider := true, exceptions := [Regex.eps] }

/-- The redirection pattern `url=(.+)` of the spec's example, verbatim. -/
def redirUnanchored : Regex :=
  Regex.seq (lit ("url=")) (Regex.group (rplus Regex.any))

/-- The same redirection anchored to the wrapper URL's start, which is
what `re.match` needs for the pattern to fire. -/
def redirAnchored : Regex :=
  Regex.seq (lit ("http://example.com/go?url=")) (Regex.group (rplus Regex.any))

/-- The wrapper provider of the spec's redirection example, with the
pattern list exactly as the spec writes it. -/
def exGoProvider : Provider :=
  { emptyProvider with
    urlPattern := lit ("http://example.com/go"), redirections := [redirUnanchored] }

/-- The wrapper provider with the anchored redirection pattern. -/
def exGoProviderAnchored : Provider :=
  { emptyProvider with
    urlPattern := lit ("http://example.com/go"), redirections := [redirAnchored] }

/-- The destination provider of the example: strips `utm_`-keys from
`real.site` URLs (`^utm_` under `re.match` is the literal `utm_`). -/
def realSiteProvider : Provider :=
  { emptyProvider with
    urlPattern := lit ("http://real.site"), rules := [lit ("utm_")] }

/-- The example input URL with the embedded percent-encoded
destination. -/
def exRedirUrl : String :=
  "http://example.com/go?url=http%3A%2F%2Freal.site%2Fpage%3Futm_source%3Dnews"

/-- The rule set of the redirection example as the spec states it. -/
def exRedirRules : RuleSet :=
  { providers := [("example", exGoProvider), ("real", realSiteProvider)] }

/-- The redirection example with the anchored wrapper pattern. -/
def exRedirRulesAnchored : RuleSet :=
  { providers := [("example", exGoProviderAnchored), ("real", realSiteProvider)] }

/-- A provider stripping `utm_`-keys from `example.com` URLs. -/
def utmProvider : Provider :=
  { emptyProvider with
    urlPattern := lit ("http://example.com"), rules := [lit ("utm_")] }

/-- A provider whose raw rule `ab` is not an idempotent substitution. -/
def rawAbProvider : Provider :=
  { emptyProvider with
    urlPattern := lit ("a"), rawRules := [lit ("ab")] }

/-- A provider for `http://x` with no removal patterns at all. -/
def hostXProvider : Provider :=
  { emptyProvider with
    urlPattern := lit ("http://x") }

/-- A non-blocking provider whose exception list matches every URL. -/
def exceptProvider : Provider :=
  { emptyProvider with
    exceptions := [Regex.eps], rules := [lit ("utm_")] }

/-- A provider whose redirection `u=(.+)` fires on URLs of the form
`u=...`. -/
def redirProvider : Provider :=
  { emptyProvider with
    urlPattern := lit ("u="),
    redirections := [Regex.seq (lit ("u=")) (Regex.group (rplus Regex.any))] }

/-- A well-formed rules document: a mapping with a `providers` mapping. -/
def validRulesDoc : Json := Json.obj [("providers", Json.obj [])]

/-! ### Helper lemmas -/

/-- Folding one filter per pattern over the pair list equals a single
filter against the disjunction of all patterns: removal is cumulative. -/
theorem foldl_filter_any (rs : List Regex) (l : List (String × String)) :
    rs.foldl (fun acc r => acc.filter (fun kv => !reMatchB true r kv.1)) l
      = l.filter (fun kv => !rs.any (fun r => reMatchB true r kv.1)) := by
  induction rs generalizing l with
  | nil => simp
  | cons r rs ih =>
    simp only [List.foldl_cons, ih, List.filter_filter, List.any_cons, Bool.not_or]
    exact List.filter_congr (fun kv _ => Bool.and_comm _ _)

/-- UTF-8 encoding of a character is never empty. -/
theorem charUtf8_ne_nil (c : Char) : charUtf8 c ≠ [] := by
  simp only [charUtf8]
  split_ifs <;> simp

/-- Percent-decoding of a non-empty character list yields bytes. -/
theorem pctBytes_ne_nil (l : List Char) (h : l ≠ []) : pctBytes l ≠ [] := by
  rw [pctBytes.eq_def]
  split
  · exact absurd rfl h
  · split <;> simp
  · simp [charUtf8_ne_nil]

/-- UTF-8 decoding of a non-empty byte list yields characters. -/
theorem utf8Decode_ne_nil (l : List Nat) (h : l ≠ []) : utf8Decode l ≠ [] := by
  match l with
  | [] => exact absurd rfl h
  | b :: rest => simp [utf8Decode, utf8DecodeF]

/-- A string built from a non-empty character list is not the empty
string. -/
theorem mk_ne_empty (l : List Char) (h : l ≠ []) : String.mk l ≠ "" := by
  intro heq
  exact h (congrArg String.data heq)

/-- `unquote` of a non-empty string is non-empty. -/
theorem unquote_mk_ne_empty (l : List Char) (h : l ≠ []) :
    unquote (String.mk l) ≠ "" := by
  unfold unquote
  exact mk_ne_empty _ (utf8Decode_ne_nil _ (pctBytes_ne_nil _ h))

/-! ### Claims -/

/-- C1: at either recursion level, whenever the provider reached with the
current working URL prefix-matches it (case-insensitively) and is marked
`completeProvider`, the whole call returns the blocked outcome
immediately, whatever providers remain. -/
theorem completeProvider_blocks (loop : Bool) (all ps : List (String × Provider))
    (name : String) (p : Provider) (u : String)
    (hmatch : reMatchB true p.urlPattern u = true)
    (hcomplete : p.completeProvider = true) :
    cleanList loop all ((name, p) :: ps) u = CleanRet.blocked := by
  cases loop <;> simp [cleanList, cleanOuter, cleanInner, hmatch, hcomplete]

/-- Witness for C1: the spec's own example, a blocking provider applied to
`https://ads.example.com/x`. -/
theorem completeProvider_blocks_witness :
    reMatchB true blockAllProvider.urlPattern ("https://ads.example.com/x") = true ∧
    blockAllProvider.completeProvider = true ∧
    cleanList true [] [("ads", blockAllProvider)] ("https://ads.example.com/x")
      = CleanRet.blocked :=
  ⟨by decide, by decide,
    completeProvider_blocks true [] [] ("ads") blockAllProvider ("https://ads.example.com/x")
      (by decide) (by decide)⟩

/-- C2 counterexample: a `completeProvider` provider whose exception list
matches the URL still blocks, because `clean_url` tests
`completeProvider` before the exception list; the claim says a matching
exception prevents the Blocked outcome. -/
theorem exception_no_blocking_cex :
    blockedWithException.completeProvider = true ∧
    reMatchB true blockedWithException.urlPattern ("https://x.test/a") = true ∧
    blockedWithException.exceptions.any
      (fun e => reMatchB true e ("https://x.test/a")) = true ∧
    clean_url ("https://x.test/a") { providers := [("c", blockedWithException)] } true
      = CleanRet.blocked :=
  ⟨by decide, by decide, by decide, by decide⟩

/-- C2 as amended: for a provider that is not marked `completeProvider`,
a matching exception skips the provider entirely — the result is exactly
the result of processing the remaining providers on the unchanged URL. -/
theorem exception_skips_provider (loop : Bool) (all ps : List (String × Provider))
    (name : String) (p : Provider) (u : String)
    (hmatch : reMatchB true p.urlPattern u = true)
    (hnc : p.completeProvider = false)
    (hexc : p.exceptions.any (fun e => reMatchB true e u) = true) :
    cleanList loop all ((name, p) :: ps) u = cleanList loop all ps u := by
  cases loop <;> simp [cleanList, cleanOuter, cleanInner, hmatch, hnc, hexc]

/-- Witness for the amended C2: a non-blocking provider with a matching
exception leaves the URL untouched. -/
theorem exception_skips_provider_witness :
    reMatchB true exceptProvider.urlPattern ("http://e.test/?utm_source=1") = true ∧
    exceptProvider.completeProvider = false ∧
    exceptProvider.exceptions.any
      (fun e => reMatchB true e ("http://e.test/?utm_source=1")) = true ∧
    cleanList true [] [("e", exceptProvider)] ("http://e.test/?utm_source=1")
      = cleanList true [] [] ("http://e.test/?utm_source=1") :=
  ⟨by decide, by decide, by decide,
    exception_skips_provider true [] [] ("e") exceptProvider ("http://e.test/?utm_source=1")
      (by decide) (by decide) (by decide)⟩

/-- C3: when the redirection scan of a matching, non-blocked,
non-excepted provider finds its first non-empty capture, the outer
invocation returns the result of one recursive pass (recursion disabled)
over the whole rule set on the percent-decoded capture — skipping the
rest of the provider and all remaining providers — while an inner
invocation folds captures into the working URL and continues with the
same provider's query stripping and raw rules. -/
theorem redirection_single_recursion (all ps : List (String × Provider))
    (name : String) (p : Provider) (u cap : String)
    (hmatch : reMatchB true p.urlPattern u = true)
    (hnc : p.completeProvider = false)
    (hexc : p.exceptions.any (fun e => reMatchB true e u) = false)
    (hredir : redirFirst p.redirections u = some cap) :
    cleanOuter all ((name, p) :: ps) u
      = clean_url (unquote cap) { providers := all } false ∧
    cleanInner ((name, p) :: ps) u
      = cleanInner ps (providerTail p (redirFold p.redirections u)) := by
  constructor
  · simp [cleanOuter, hmatch, hnc, hexc, hredir, clean_url, cleanList]
  · simp [cleanInner, hmatch, hnc, hexc]

/-- Witness for C3: the redirection `u=(.+)` firing on `u=abc`. -/
theorem redirection_single_recursion_witness :
    reMatchB true redirProvider.urlPattern ("u=abc") = true ∧
    redirProvider.completeProvider = false ∧
    redirProvider.exceptions.any (fun e => reMatchB true e ("u=abc")) = false ∧
    redirFirst redirProvider.redirections ("u=abc") = some ("abc") ∧
    cleanOuter [("r", redirProvider)] [("r", redirProvider)] ("u=abc")
      = clean_url (unquote ("abc")) { providers := [("r", redirProvider)] } false ∧
    cleanInner [("r", redirProvider)] ("u=abc")
      = cleanInner []
          (providerTail redirProvider (redirFold redirProvider.redirections ("u=abc"))) := by
  have h := redirection_single_recursion [("r", redirProvider)] [] ("r") redirProvider
    ("u=abc") ("abc") (by decide) (by decide) (by decide) (by decide)
  exact ⟨by decide, by decide, by decide, by decide, h.1, h.2⟩

/-- C4: query stripping is a single order- and duplicate-preserving
filter of the parsed pairs against the concatenated `rules` and
`referralMarketing` patterns (removal cumulative across patterns),
re-serialized over the six URL components; on the spec's example the
query `utm_source=x&id=5` becomes `id=5`. -/
theorem query_param_stripping :
    (∀ (p : Provider) (u : String),
      stripQuery p u =
        urlunparse (urlparse u).scheme (urlparse u).netloc (urlparse u).path
          (urlparse u).params
          (urlencode ((parse_qsl (urlparse u).query).filter
            (fun kv => !(p.rules ++ p.referralMarketing).any
              (fun r => reMatchB true r kv.1))))
          (urlparse u).fragment) ∧
    (∀ (p : Provider) (u : String),
      List.Sublist
        ((parse_qsl (urlparse u).query).filter
          (fun kv => !(p.rules ++ p.referralMarketing).any
            (fun r => reMatchB true r kv.1)))
        (parse_qsl (urlparse u).query)) ∧
    cleanOutcome ("http://example.com/?utm_source=x&id=5")
        { providers := [("example", utmProvider)] }
      = Outcome.Cleaned ("http://example.com/?id=5") := by
  refine ⟨fun p u => ?_, fun p u => List.filter_sublist _, by decide⟩
  simp only [stripQuery, foldl_filter_any]

/-- C5 counterexample: with the redirection written exactly as the spec's
example gives it (`url=(.+)`), `re.match` anchors at the start of the
URL, the pattern never fires, and the call returns the input unchanged
instead of `Cleaned("http://real.site/page")`. -/
theorem redirect_example_cex :
    cleanOutcome exRedirUrl exRedirRules = Outcome.Unchanged exRedirUrl ∧
    cleanOutcome exRedirUrl exRedirRules ≠ Outcome.Cleaned ("http://real.site/page") :=
  ⟨by decide, by decide⟩

set_option maxRecDepth 40000 in
/-- C5 as amended: with the redirection pattern anchored so that it
matches from the start of the wrapper URL, the example unwraps through
the recursive pass and the `utm_` strip to
`Cleaned("http://real.site/page")`. -/
theorem redirect_example_amended :
    cleanOutcome exRedirUrl exRedirRulesAnchored
      = Outcome.Cleaned ("http://real.site/page") := by
  decide

/-- C6 counterexample: the raw rule `ab` is not an idempotent
substitution — cleaning `aabb` yields `Cleaned("ab")`, and re-cleaning
that output yields `Cleaned("")`, not `Unchanged`. -/
theorem clean_not_idempotent_cex :
    cleanOutcome ("aabb") { providers := [("sub", rawAbProvider)] }
      = Outcome.Cleaned ("ab") ∧
    cleanOutcome ("ab") { providers := [("sub", rawAbProvider)] }
      = Outcome.Cleaned ("") ∧
    cleanOutcome ("ab") { providers := [("sub", rawAbProvider)] }
      ≠ Outcome.Unchanged ("ab") :=
  ⟨by decide, by decide, by decide⟩

/-- C6 as amended: within each provider the raw-rule substitution is
applied to the output of query stripping (after the redirection scan),
at both recursion levels; idempotence of the whole pass does not hold in
general. -/
theorem rawRules_after_stripQuery (all ps : List (String × Provider))
    (name : String) (p : Provider) (u : String)
    (hmatch : reMatchB true p.urlPattern u = true)
    (hnc : p.completeProvider = false)
    (hexc : p.exceptions.any (fun e => reMatchB true e u) = false)
    (hnored : redirFirst p.redirections u = none) :
    cleanInner ((name, p) :: ps) u
      = cleanInner ps (applyRawRules p.rawRules (stripQuery p (redirFold p.redirections u))) ∧
    cleanOuter all ((name, p) :: ps) u
      = cleanOuter all ps (applyRawRules p.rawRules (stripQuery p u)) := by
  constructor
  · simp [cleanInner, hmatch, hnc, hexc, providerTail]
  · simp [cleanOuter, hmatch, hnc, hexc, hnored, providerTail]

/-- Witness for the amended C6, on the `utm_`-stripping provider. -/
theorem rawRules_after_stripQuery_witness :
    reMatchB true utmProvider.urlPattern ("http://example.com/?utm_source=x&id=5") = true ∧
    utmProvider.completeProvider = false ∧
    utmProvider.exceptions.any
      (fun e => reMatchB true e ("http://example.com/?utm_source=x&id=5")) = false ∧
    redirFirst utmProvider.redirections ("http://example.com/?utm_source=x&id=5") = none ∧
    cleanInner [("e", utmProvider)] ("http://example.com/?utm_source=x&id=5")
      = cleanInner []
          (applyRawRules utmProvider.rawRules
            (stripQuery utmProvider
              (redirFold utmProvider.redirections ("http://example.com/?utm_source=x&id=5")))) ∧
    cleanOuter [] [("e", utmProvider)] ("http://example.com/?utm_source=x&id=5")
      = cleanOuter [] []
          (applyRawRules utmProvider.rawRules
            (stripQuery utmProvider ("http://example.com/?utm_source=x&id=5"))) := by
  have h := rawRules_after_stripQuery [] [] ("e") utmProvider
    ("http://example.com/?utm_source=x&id=5") (by decide) (by decide) (by decide) (by decide)
  exact ⟨by decide, by decide, by decide, by decide, h.1, h.2⟩

/-- C7 counterexample: a downloaded body that parses as the JSON array
`[]` — not a mapping containing a `providers` mapping — is stored as the
new rules, silently replacing a valid rule set. -/
theorem update_validation_cex :
    updateRules validRulesDoc (some validRulesDoc)
        (some { status := 200, body := [91, 93], parsed := some (Json.arr []) })
      = Json.arr [] ∧
    isProvidersDoc (Json.arr []) = false ∧
    Json.arr [] ≠ validRulesDoc :=
  ⟨rfl, rfl, fun h => Json.noConfusion h⟩

/-- C7 as amended: a failed download (client error, non-200 status,
empty body, or a `json.loads` failure) never installs the downloaded
document but instead falls back to the local rules file — which replaces
the stored rules whenever it loads, keeping the old rules only when the
file itself is missing or invalid — while any successfully parsed body
is stored as-is, with no validation of its shape. -/
theorem update_fallback_and_store (old : Json) (localFile : Option Json)
    (d : Download) (r : Json) :
    updateRules old localFile none = loadRulesFromFile old localFile ∧
    (d.status ≠ 200 → updateRules old localFile (some d) = loadRulesFromFile old localFile) ∧
    (d.body = [] → updateRules old localFile (some d) = loadRulesFromFile old localFile) ∧
    (d.parsed = none → updateRules old localFile (some d) = loadRulesFromFile old localFile) ∧
    (d.status = 200 → d.body ≠ [] → d.parsed = some r →
      updateRules old localFile (some d) = r) := by
  refine ⟨rfl, fun h => ?_, fun h => ?_, fun h => ?_, fun h1 h2 h3 => ?_⟩
  · simp [updateRules, h]
  · simp only [updateRules]
    split_ifs <;> simp_all
  · simp only [updateRules]
    split_ifs <;> simp_all
  · simp [updateRules, h1, h2, h3]

/-- Witness for the amended C7: a parsed non-providers document is
stored. -/
theorem update_fallback_and_store_witness :
    updateRules validRulesDoc none
        (some { status := 200, body := [49], parsed := some (Json.num 1) })
      = Json.num 1 :=
  (update_fallback_and_store validRulesDoc none
      { status := 200, body := [49], parsed := some (Json.num 1) } (Json.num 1)).2.2.2.2
    rfl (by simp) rfl

/-- C8: `clean_url` answers through a single return slot (the blocked
signal and the URL string are constructors of one type), and the
message listener's significance check, which measures the length of the
cleaning result unconditionally, raises when handed the blocked signal:
a blocking rule set makes the very value fed to the check be `blocked`,
on which the check errors, while a non-blocking rule set produces a
string in the same slot. -/
theorem blocked_signal_breaks_significance :
    clean_url ("https://ads.example.com/x") { providers := [("ads", blockAllProvider)] } true
      = CleanRet.blocked ∧
    significanceCheck ("https://ads.example.com/x")
        (clean_url ("https://ads.example.com/x")
          { providers := [("ads", blockAllProvider)] } true) 2
      = Except.error () ∧
    clean_url ("https://ads.example.com/x") { providers := [] } true
      = CleanRet.url ("https://ads.example.com/x") :=
  ⟨rfl, rfl, rfl⟩

/-- C9: `parse_qsl` never yields a pair with a blank value — blank-valued
pairs (and bare keys) are discarded before any removal pattern is
consulted — so a matching provider re-serializes the URL without them
even when no pattern matches their key: `http://x/?a=&b=1` becomes
`Cleaned("http://x/?b=1")` under a provider with no removal patterns. -/
theorem blank_query_pairs_dropped :
    (∀ (qs : String) (kv : String × String), kv ∈ parse_qsl qs → kv.2 ≠ "") ∧
    cleanOutcome ("http://x/?a=&b=1") { providers := [("x", hostXProvider)] }
      = Outcome.Cleaned ("http://x/?b=1") := by
  constructor
  · intro qs kv hmem
    rw [parse_qsl, List.mem_filterMap] at hmem
    obtain ⟨nv, hnv, hf⟩ := hmem
    split at hf
    · exact Option.noConfusion hf
    · split at hf
      · exact Option.noConfusion hf
      · next pr =>
        split at hf
        · exact Option.noConfusion hf
        · next hvne =>
          obtain rfl := Option.some.inj hf
          simp only []
          apply unquote_mk_ne_empty
          intro hmap
          rw [plusToSpace, List.map_eq_nil_iff] at hmap
          rw [hmap] at hvne
          exact hvne rfl
  · decide

/-- Witness for C9: the surviving pair of `b=1` has a non-blank value. -/
theorem blank_query_pairs_dropped_witness :
    ("b", "1") ∈ parse_qsl ("b=1") ∧ ("b", "1").2 ≠ "" :=
  ⟨by decide, blank_query_pairs_dropped.1 ("b=1") ("b", "1") (by decide)⟩

end Scrub
